import Mathlib

/-!
Verification development for the Kalshi–Polymarket arbitrage bot
(`kalshi_poly_arb_live.py`).  Python functions are shallowly embedded as
Lean definitions: float prices become exact rationals (ℚ), titles become
strings processed as lists of characters, dictionaries become association
lists, and the network side effects of the execution coordinator become
explicit environment records whose fields say whether each external call
succeeds.  Places where Python would raise an uncaught exception on
malformed input (for example an out-of-range list index) are modelled by
total functions returning defaults; every claim proved here is about
inputs on which the Python code runs without such an error.
-/

namespace PolyBotArb

/-! ## Character-list string utilities (models of Python `str` operations) -/

/-- Model of Python string lowering: the characters of `s`, lowercased. -/
def lower (s : String) : List Char :=
  s.data.map Char.toLower

/-- Boolean prefix test on character lists. -/
def isPrefList : List Char → List Char → Bool
  | [], _ => true
  | _ :: _, [] => false
  | a :: as, b :: bs => a == b && isPrefList as bs

/-- Boolean substring (contiguous infix) test, the model of Python
    `needle in haystack`. -/
def isSubList (n : List Char) : List Char → Bool
  | [] => n.isEmpty
  | c :: t => isPrefList n (c :: t) || isSubList n t

/-- The relation `sub n h` models Python `n in h` for a lowercase literal
    needle `n` and an already-lowercased haystack `h`. -/
def sub (n : String) (h : List Char) : Bool :=
  isSubList n.data h

/-- Model of Python `s.split(sep)` for a single-character separator,
    on character lists.  Always returns at least one chunk. -/
def splitOnChar (sep : Char) : List Char → List (List Char)
  | [] => [[]]
  | c :: t =>
    let r := splitOnChar sep t
    if c == sep then [] :: r
    else match r with
      | [] => [[c]]
      | h :: hs => (c :: h) :: hs

/-- Python `s.split(sep)` returning strings. -/
def pySplit (sep : Char) (s : List Char) : List String :=
  (splitOnChar sep s).map List.asString

/-- Python `s[:n]` on strings. -/
def strTake (n : Nat) (s : String) : String :=
  (s.data.take n).asString

/-- Python `s.upper()`. -/
def strUpper (s : String) : String :=
  (s.data.map Char.toUpper).asString

/-! ## The number scanner: model of `re.search(r'([-+]?\d+\.?\d*)', t)`
followed by `float(...)` of the matched text. -/

/-- Numeric value of a digit character. -/
def digitVal (c : Char) : ℕ := c.toNat - ('0').toNat

/-- Value of a digit string read left to right. -/
def natOfDigits (l : List Char) : ℕ :=
  l.foldl (fun a c => a * 10 + digitVal c) 0

/-- Try to match the regex `[-+]?\d+\.?\d*` anchored at the head of `l`,
    returning the float value of the match.  Mirrors Python regex
    semantics: an optional sign, then at least one digit (greedy), then an
    optional dot, then optional digits (greedy). -/
def matchNumAt (l : List Char) : Option ℚ :=
  let signAndRest : ℚ × List Char :=
    match l with
    | '-' :: t => (-1, t)
    | '+' :: t => (1, t)
    | _ => (1, l)
  match signAndRest.2 with
  | [] => none
  | c :: _ =>
    if c.isDigit then
      let intPart := signAndRest.2.takeWhile Char.isDigit
      let rest := signAndRest.2.dropWhile Char.isDigit
      let fracPart :=
        match rest with
        | '.' :: t => t.takeWhile Char.isDigit
        | _ => []
      some (signAndRest.1 *
        ((natOfDigits intPart : ℚ) +
          (natOfDigits fracPart : ℚ) / 10 ^ fracPart.length))
    else none

/-- Leftmost regex match over the whole list: the model of `re.search`
    with the pattern above.  (If a sign character is not followed by a
    digit neither the signed nor the unsigned alternative can start
    there, matching Python's backtracking.) -/
def scanNumber : List Char → Option ℚ
  | [] => none
  | c :: t =>
    match matchNumAt (c :: t) with
    | some v => some v
    | none => scanNumber t

/-! ## Market-type classification (`extract_market_type`) -/

/-- The three market shapes the detector handles. -/
inductive MType
  | spread
  | total
  | winner
deriving DecidableEq, Repr

/-- String form of a market type as used in Python f-strings. -/
def mtStr : MType → String
  | .spread => "spread"
  | .total => "total"
  | .winner => "winner"

/-- Model of `extract_market_type(title)`: fixed keyword rules tested in
    priority order on the lowercased title. -/
def extract_market_type (title : String) : Option MType :=
  let t := lower title
  if sub "spread" t || sub "wins by" t then some .spread
  else if sub "o/u" t || sub "over/under" t || (sub "over" t && sub "under" t) then
    some .total
  else if sub "team total" t then some .total
  else if sub "winner" t || (sub " wins" t && !(sub "by" t)) then some .winner
  else if sub " vs" t && !(sub "spread" t) && !(sub "o/u" t) && !(sub "total" t) then
    some .winner
  else none

/-- Model of `extract_line_number(title)`: the first number in the title,
    if any. -/
def extract_line_number (title : String) : Option ℚ :=
  scanNumber title.data

/-! ## Module-level constants of the bot -/

def MIN_PROFIT : ℚ := 5 / 1000
def KALSHI_TAKER_FEE : ℚ := 2 / 100
def MAX_POSITION : ℚ := 8
def LOSS_KILL_THRESHOLD : ℚ := 40 / 100
def LIQUIDITY_PERCENT : ℚ := 30 / 100
/-- Defined in the source with the comment "Don't re-execute same arb within
    1 hour" but never read anywhere in the program. -/
def ARB_COOLDOWN_SECONDS : ℚ := 3600
def MAX_POSITIONS_PER_GAME : ℕ := 3
def TEST_ORDER_SIZE : ℚ := 2
def DRY_RUN : Bool := false
def TEST_TINY_ORDER : Bool := true

/-! ## Team search terms (`TEAM_SEARCH_MAP` / `get_team_search_terms`)

The Python table is a single dict literal in which several abbreviations
appear twice (once for NFL, once for NBA): in a Python dict literal the
later binding wins, so lookup must take the **last** occurrence.  The list
below is transcribed in source order, duplicates included. -/

def TEAM_SEARCH_MAP : List (String × List String) := [
  ("buf", ["buffalo", "bills"]),
  ("den", ["denver", "broncos"]),
  ("mia", ["miami", "dolphins"]),
  ("ne", ["new england", "patriots"]),
  ("nyj", ["new york jets", "jets", "ny jets"]),
  ("nyg", ["new york giants", "giants", "ny giants"]),
  ("bal", ["baltimore", "ravens"]),
  ("cin", ["cincinnati", "bengals"]),
  ("cle", ["cleveland", "browns"]),
  ("pit", ["pittsburgh", "steelers"]),
  ("hou", ["houston", "texans"]),
  ("ind", ["indianapolis", "colts"]),
  ("jax", ["jacksonville", "jaguars"]),
  ("ten", ["tennessee", "titans"]),
  ("kc", ["kansas city", "chiefs"]),
  ("lv", ["las vegas", "raiders"]),
  ("lac", ["los angeles chargers", "chargers", "la chargers"]),
  ("lar", ["los angeles rams", "rams", "la rams"]),
  ("sea", ["seattle", "seahawks"]),
  ("sfs", ["san francisco", "49ers", "niners"]),
  ("ari", ["arizona", "cardinals"]),
  ("atl", ["atlanta", "falcons"]),
  ("car", ["carolina", "panthers"]),
  ("dal", ["dallas", "cowboys"]),
  ("det", ["detroit", "lions"]),
  ("gb", ["green bay", "packers"]),
  ("min", ["minnesota", "vikings"]),
  ("no", ["new orleans", "saints"]),
  ("phi", ["philadelphia", "eagles"]),
  ("tb", ["tampa bay", "buccaneers"]),
  ("was", ["washington", "commanders"]),
  ("chi", ["chicago", "bears"]),
  ("atl", ["atlanta", "hawks"]),
  ("bos", ["boston", "celtics"]),
  ("bkn", ["brooklyn", "nets"]),
  ("cha", ["charlotte", "hornets"]),
  ("chi", ["chicago", "bulls"]),
  ("cle", ["cleveland", "cavaliers", "cavs"]),
  ("dal", ["dallas", "mavericks", "mavs"]),
  ("den", ["denver", "nuggets"]),
  ("det", ["detroit", "pistons"]),
  ("gsw", ["golden state", "warriors"]),
  ("hou", ["houston", "rockets"]),
  ("ind", ["indiana", "pacers"]),
  ("lac", ["los angeles clippers", "clippers", "la clippers"]),
  ("lal", ["los angeles lakers", "lakers", "la lakers"]),
  ("mem", ["memphis", "grizzlies"]),
  ("mia", ["miami", "heat"]),
  ("mil", ["milwaukee", "bucks"]),
  ("min", ["minnesota", "timberwolves", "wolves"]),
  ("nop", ["new orleans", "pelicans"]),
  ("nyk", ["new york knicks", "knicks", "ny knicks"]),
  ("okc", ["oklahoma city", "thunder"]),
  ("orl", ["orlando", "magic"]),
  ("phi", ["philadelphia", "76ers", "sixers"]),
  ("phx", ["phoenix", "suns"]),
  ("por", ["portland", "trail blazers"]),
  ("sac", ["sacramento", "kings"]),
  ("sas", ["san antonio", "spurs"]),
  ("tor", ["toronto", "raptors"]),
  ("uta", ["utah", "jazz"]),
  ("was", ["washington", "wizards"]),
  ("gcu", ["grand canyon", "antelopes"]),
  ("nm", ["new mexico", "lobos"]),
  ("marq", ["marquette", "golden eagles"]),
  ("sju", ["st johns", "st. john's", "red storm"]),
  ("duke", ["duke", "blue devils"]),
  ("unc", ["north carolina", "tar heels"]),
  ("ku", ["kansas", "jayhawks"]),
  ("uk", ["kentucky", "wildcats"]),
  ("nova", ["villanova", "wildcats"]),
  ("prov", ["providence", "friars"]),
  ("gonz", ["gonzaga", "bulldogs", "zags"]),
  ("uconn", ["uconn", "connecticut", "huskies"]),
  ("ucla", ["ucla", "bruins"]),
  ("pur", ["purdue", "boilermakers"]),
  ("tenn", ["tennessee", "volunteers", "vols"]),
  ("txam", ["texas a&m", "aggies", "texas am"]),
  ("pepp", ["pepperdine", "waves"]),
  ("port", ["portland", "pilots"])]

/-- Model of `get_team_search_terms(abbrev)`: dict lookup (last binding
    wins) with the lowercased abbreviation itself as default. -/
def get_team_search_terms (ab : String) : List String :=
  let abLower := (ab.data.map Char.toLower).asString
  match TEAM_SEARCH_MAP.reverse.lookup abLower with
  | some ts => ts
  | none => [abLower]

/-! ## Spread identification (`extract_spread_info`) -/

/-- Model of `extract_spread_info(title, game_key)`: the `(team_abbrev,
    absolute line)` a spread title resolves to, or `none` when the game
    key is malformed, the title has no number, or no game team's search
    terms occur in the title. -/
def extract_spread_info (title : String) (game_key : String) : Option (String × ℚ) :=
  if sub ":" game_key.data then
    let teams_str := (pySplit ':' game_key.data).getD 1 ""
    let team_abbrevs := pySplit '-' teams_str.data
    if team_abbrevs.length = 2 then
      let title_lower := lower title
      match scanNumber title_lower with
      | none => none
      | some line0 =>
        let line := |line0|
        (team_abbrevs.find? fun ab =>
          (get_team_search_terms ab).any fun term =>
            isSubList (lower term) title_lower).map fun ab => (ab, line)
    else none
  else none

/-! ## Market records as ingested by `get_kalshi_games` / `get_polymarket_games`

Only the fields that `find_arbs`, `calculate_position_size` and
`execute_arb` read are modelled; display-only fields are omitted. -/

structure KsMarket where
  title : String
  yes : ℚ
  no : ℚ
  id : String
  open_interest : ℚ
  volume_24h : ℚ
deriving DecidableEq

structure PmMarket where
  title : String
  yes : ℚ
  no : ℚ
  bid : ℚ
  ask : ℚ
  /-- The `clobTokenIds` pair `[yesToken, noToken]`. -/
  id : List String
  outcomes : List String
  volume : ℚ
  volume_24h : ℚ
deriving DecidableEq

/-- The Kalshi side of a candidate (`'yes'` / `'no'` in Python). -/
inductive KSide
  | yes
  | no
deriving DecidableEq, Repr

def ksSideStr : KSide → String
  | .yes => "yes"
  | .no => "no"

/-- The Polymarket side of a candidate.  The Python code stores the
    strings `'yes'`/`'no'` for spread and winner candidates but the bare
    integers `0`/`1` for total candidates. -/
inductive PmSide
  | yes
  | no
  | n0
  | n1
deriving DecidableEq, Repr

def pmSideStr : PmSide → String
  | .yes => "yes"
  | .no => "no"
  | .n0 => "0"
  | .n1 => "1"

/-- The `pm_id` of a candidate: the whole `clobTokenIds` pair for spread
    and total candidates, a single selected token for winner candidates. -/
inductive PmId
  | lst (tokens : List String)
  | tok (t : String)
deriving DecidableEq

/-- An `ArbitrageCandidate` dict as built by `find_arbs`.  `ks_ask` holds
    the Kalshi leg cost before fee (stored in the dict as `ks_yes_ask` or
    `ks_no_ask` depending on the side); the display-only fields
    `pm_team`, `ks_team` and `hedge_check` are omitted. -/
structure Arb where
  game : String
  type : String
  market_type : MType
  ks : String
  pm : String
  ks_id : String
  pm_id : PmId
  ks_side : KSide
  pm_side : PmSide
  cost : ℚ
  profit : ℚ
  roi : ℚ
  fee : ℚ
  ks_ask : ℚ
  pm_best_ask : ℚ
deriving DecidableEq

/-- Builds a candidate dict the way every `arbs.append({...})` site does:
    `fee = ks_cost_before_fee * KALSHI_TAKER_FEE`,
    `cost = ks_cost_before_fee + fee + pm_cost`, `profit = 1 - cost`,
    `roi = profit / cost if cost > 0 else 0`, titles truncated to 60. -/
def mkArb (game ty : String) (mt : MType) (ksTitle pmTitle ksId : String)
    (pmId : PmId) (ksSide : KSide) (pmSide : PmSide) (ksAsk pmCost : ℚ) : Arb :=
  let fee := ksAsk * KALSHI_TAKER_FEE
  let cost := ksAsk + fee + pmCost
  let profit := 1 - cost
  { game := game, type := ty, market_type := mt,
    ks := strTake 60 ksTitle, pm := strTake 60 pmTitle,
    ks_id := ksId, pm_id := pmId, ks_side := ksSide, pm_side := pmSide,
    cost := cost, profit := profit,
    roi := if 0 < cost then profit / cost else 0,
    fee := fee, ks_ask := ksAsk, pm_best_ask := pmCost }

/-- The guard every append site uses:
    `if profit1 >= MIN_PROFIT * cost1 and cost1 > 0`. -/
def emit (a : Arb) : List Arb :=
  if MIN_PROFIT * a.cost ≤ a.profit ∧ 0 < a.cost then [a] else []

/-- Cost and token index for buying a given Polymarket outcome index:
    `outcomes[0]` is bought via the YES price and token 0, anything else
    via the NO price and token 1. -/
def pmTokPick (pmm : PmMarket) (idx : ℕ) : ℚ × ℕ :=
  if idx = 0 then (pmm.yes, 0) else (pmm.no, 1)

/-- Last outcome index whose lowercased text contains one of the team's
    search terms: the Python loop assigns the index on every match without
    breaking the outer loop, so the final value is the last match. -/
def lastMatchIdx (terms : List String) (outs : List String) : Option ℕ :=
  outs.enum.foldl
    (fun acc p =>
      if terms.any (fun t => isSubList (lower t) (lower p.2)) then some p.1 else acc)
    none

/-- The candidates one `(ks_market, pm_market)` pair of a given market
    type contributes, mirroring the body of the innermost loop of
    `find_arbs` (line-match pre-filter included).  Python list indexing
    that would raise on a malformed game key is modelled by defaults;
    such keys emit nothing here where Python would abort the scan. -/
def candPair (game_key : String) (mt : MType) (ksm : KsMarket) (pmm : PmMarket) :
    List Arb :=
  match mt with
  | .spread =>
    match extract_spread_info ksm.title game_key,
        extract_spread_info pmm.title game_key with
    | some ks_sp, some pm_sp =>
      if ks_sp = pm_sp then
        let ks_team := ks_sp.1
        let pm_team := pm_sp.1
        let teams := pySplit '-' ((pySplit ':' game_key.data).getD 1 "").data
        let opponent :=
          if teams.getD 0 "" = ks_team then teams.getD 1 "" else teams.getD 0 ""
        let arb1 :=
          let pick : ℚ × PmSide :=
            if pm_team = ks_team then (pmm.no, .no) else (pmm.yes, .yes)
          emit (mkArb game_key
            ("Kalshi " ++ strUpper ks_team ++ " YES + Poly " ++ strUpper opponent ++ " YES")
            .spread ksm.title pmm.title ksm.id (.lst pmm.id) .yes pick.2 ksm.yes pick.1)
        let arb2 :=
          let pick : ℚ × PmSide :=
            if pm_team = ks_team then (pmm.yes, .yes) else (pmm.no, .no)
          emit (mkArb game_key
            ("Kalshi " ++ strUpper opponent ++ " YES + Poly " ++ strUpper ks_team ++ " YES")
            .spread ksm.title pmm.title ksm.id (.lst pmm.id) .no pick.2 ksm.no pick.1)
        arb1 ++ arb2
      else []
    | _, _ => []
  | .winner =>
    if extract_line_number ksm.title = extract_line_number pmm.title then
      let teams := pySplit '-' ((pySplit ':' game_key.data).getD 1 "").data
      if teams.length = 2 then
        let ks_title_lower := lower ksm.title
        match teams.find? (fun ab => (get_team_search_terms ab).any
            fun term => isSubList (lower term) ks_title_lower) with
        | none => []
        | some ks_team =>
          let opponent :=
            if teams.getD 0 "" = ks_team then teams.getD 1 "" else teams.getD 0 ""
          if pmm.outcomes.length < 2 then []
          else
            match lastMatchIdx (get_team_search_terms ks_team) pmm.outcomes,
                lastMatchIdx (get_team_search_terms opponent) pmm.outcomes with
            | some ki, some oi =>
              let arb1 :=
                emit (mkArb game_key
                  ("KS:YES(" ++ strUpper ks_team ++ ") + PM:" ++ strUpper opponent)
                  .winner ksm.title pmm.title ksm.id
                  (.tok (pmm.id.getD (pmTokPick pmm oi).2 ""))
                  .yes (if (pmTokPick pmm oi).2 = 0 then .yes else .no)
                  ksm.yes (pmTokPick pmm oi).1)
              let arb2 :=
                emit (mkArb game_key
                  ("KS:NO(" ++ strUpper ks_team ++ ") + PM:" ++ strUpper ks_team)
                  .winner ksm.title pmm.title ksm.id
                  (.tok (pmm.id.getD (pmTokPick pmm ki).2 ""))
                  .no (if (pmTokPick pmm ki).2 = 0 then .yes else .no)
                  ksm.no (pmTokPick pmm ki).1)
              arb1 ++ arb2
            | _, _ => []
      else []
    else []
  | .total =>
    if extract_line_number ksm.title = extract_line_number pmm.title then
      emit (mkArb game_key "Kalshi YES + Poly NO" .total ksm.title pmm.title ksm.id
        (.lst pmm.id) .yes .n1 ksm.yes pmm.no) ++
      emit (mkArb game_key "Kalshi NO + Poly YES" .total ksm.title pmm.title ksm.id
        (.lst pmm.id) .no .n0 ksm.no pmm.yes)
    else []

def mtypes : List MType := [.spread, .total, .winner]

/-- One game's candidates: markets on each venue are grouped by
    `extract_market_type` (unclassifiable markets dropped) and every
    cross-venue pair of the same type is considered.  Grouping by
    per-type filters is equivalent to the Python dict bucketing because
    `extract_market_type` is pure. -/
def arbsForGame (game_key : String) (ksms : List KsMarket) (pmms : List PmMarket) :
    List Arb :=
  mtypes.flatMap fun mt =>
    (ksms.filter fun m => decide (extract_market_type m.title = some mt)).flatMap fun ksm =>
      (pmms.filter fun m => decide (extract_market_type m.title = some mt)).flatMap fun pmm =>
        candPair game_key mt ksm pmm

/-- Model of `find_arbs(ks_games, pm_games)`: the game dictionaries
    become association lists keyed by the sport-tagged game key; games
    present on only one venue contribute nothing. -/
def find_arbs (ks_games : List (String × List KsMarket))
    (pm_games : List (String × List PmMarket)) : List Arb :=
  ks_games.flatMap fun e =>
    match pm_games.lookup e.1 with
    | none => []
    | some pmms => arbsForGame e.1 e.2 pmms

/-! ## Position sizing (`calculate_position_size`)

The two balance-fetching network calls at the top of the Python function
are passed in as the `ks_balance` / `pm_balance` parameters.  The Python
loops searching for the first market dict carrying the price keys always
hit the first element here because every modelled market carries all its
keys. -/

/-- The Kalshi liquidity ceiling: spread-width bucket of the first
    market carrying price keys (default spread 0.01 when none). -/
def ksLiqCeiling (ks_markets : List KsMarket) : ℚ :=
  let ks_spread : ℚ :=
    match ks_markets with
    | [] => 1 / 100
    | m :: _ => |m.yes - m.no|
  if ks_spread < 1 / 100 then 20
  else if ks_spread < 3 / 100 then 10
  else if ks_spread < 5 / 100 then 5
  else 2

/-- The Polymarket liquidity ceiling: spread-width bucket of the first
    market carrying price keys (default spread 0.05 when none). -/
def pmLiqCeiling (pm_markets : List PmMarket) : ℚ :=
  let pm_spread : ℚ :=
    match pm_markets with
    | [] => 5 / 100
    | m :: _ => |m.ask - m.yes|
  if pm_spread < 2 / 100 then 50
  else if pm_spread < 5 / 100 then 25
  else if pm_spread < 10 / 100 then 10
  else 5

/-- A venue's capital ceiling: 50% of the balance divided by unit cost. -/
def capitalCeiling (balance arb_cost : ℚ) : ℚ :=
  if 0 < arb_cost then balance * (1 / 2) / arb_cost else 0

/-- The profitability floor `min_position`. -/
def profitFloor (arb_profit : ℚ) : ℚ :=
  let min_profit_per_share := arb_profit * (95 / 100)
  if 0 < min_profit_per_share then
    max (1 / 100) ((1 / 100) / (min_profit_per_share + 1 / 1000))
  else 1 / 100

/-- The `max_position` bound: the minimum of both liquidity ceilings, both
    capital ceilings and the global risk cap. -/
def maxPositionOf (arb_cost : ℚ) (ks_markets : List KsMarket)
    (pm_markets : List PmMarket) (ks_balance pm_balance : ℚ) : ℚ :=
  min (ksLiqCeiling ks_markets)
    (min (pmLiqCeiling pm_markets)
      (min (capitalCeiling ks_balance arb_cost)
        (min (capitalCeiling pm_balance arb_cost) MAX_POSITION)))

/-- Model of `calculate_position_size`, returning the `size` field of the
    result dict. -/
def calculate_position_size (arb_cost arb_profit : ℚ)
    (ks_markets : List KsMarket) (pm_markets : List PmMarket)
    (ks_balance pm_balance : ℚ) : ℚ :=
  let min_position := profitFloor arb_profit
  let max_position := maxPositionOf arb_cost ks_markets pm_markets ks_balance pm_balance
  let position_size :=
    if min_position ≤ max_position then max_position * (70 / 100) else min_position
  max (1 / 100) (min position_size 1)

/-- Modelled from the claim's words (C7): the minimum of all ceilings and
    the global cap, scaled by the 70% safety factor, **unless that scaled
    value** falls below the profitability floor, in which case the floor
    is used, with the result clamped to [0.01, 1.0].  This is the spec
    side of the refinement comparison; the code compares the *unscaled*
    minimum against the floor instead. -/
def sizePerClaim (arb_cost arb_profit : ℚ)
    (ks_markets : List KsMarket) (pm_markets : List PmMarket)
    (ks_balance pm_balance : ℚ) : ℚ :=
  let min_position := profitFloor arb_profit
  let max_position := maxPositionOf arb_cost ks_markets pm_markets ks_balance pm_balance
  let scaled := max_position * (70 / 100)
  let position_size := if scaled < min_position then min_position else scaled
  max (1 / 100) (min position_size 1)

/-! ## Execution coordinator (`execute_arb`)

The external world is an explicit environment: live balances and the
success of each of the three possible venue calls (the Polymarket buy,
the Kalshi order, the compensating Polymarket sell).  The result records
the return value, the ordered trace of venue order calls, and the trade
records passed to `log_trade`.  The model follows the source's shipped
configuration (`DRY_RUN = False`, `TEST_TINY_ORDER = True`); the
`except` handler at the bottom of the Python function is unreachable in
this model because each called helper catches its own exceptions and
returns a result dict. -/

inductive Ev
  | pmOrder
  | ksOrder
  | pmClose
deriving DecidableEq, Repr

structure ExecEnv where
  ks_balance : ℚ
  pm_balance : ℚ
  pmOrderOk : Bool
  ksOrderOk : Bool
  pmCloseOk : Bool
deriving DecidableEq

/-- The `(success, both_legs_filled, position_size)` arguments of a
    `log_trade` call made during execution. -/
structure LogRec where
  success : Bool
  both_legs_filled : Bool
  position_size : ℚ
deriving DecidableEq

structure ExecResult where
  ret : Bool
  events : List Ev
  logs : List LogRec
deriving DecidableEq

/-- Minimum against an optional bound (`float('inf')` becomes `none`). -/
def minQ (q : ℚ) : Option ℚ → ℚ
  | none => q
  | some x => min q x

/-- The market-search predicate of the liquidity check:
    `m['id'] == arb['pm_id'] or (isinstance(m['id'], list) and arb['pm_id'] in m['id'])`. -/
def pmIdMatches (pid : PmId) (m : PmMarket) : Bool :=
  match pid with
  | .lst l => decide (m.id = l)
  | .tok t => m.id.contains t

/-- The later strict-equality search for `pm_market_data`
    (`m['id'] == arb['pm_id']`): a single-token `pm_id` never equals the
    token-pair list, so winner candidates always fail this lookup. -/
def pmIdEq (pid : PmId) (m : PmMarket) : Bool :=
  match pid with
  | .lst l => decide (m.id = l)
  | .tok _ => false

/-- The pre-flight part of `execute_arb` (everything before "STEP 1"):
    sanity checks, sizing, capital checks and the two market lookups.
    Returns the final position size when every gate passes, `none` when
    any early `return False` fires — no order is placed on these paths. -/
def preflight (arb : Arb) (ks_games : List (String × List KsMarket))
    (pm_games : List (String × List PmMarket)) (env : ExecEnv) : Option ℚ :=
  let cost := arb.cost
  if cost ≤ 0 then none
  else if arb.profit ≤ 0 then none
  else if 1 < cost then none
  else
    let ks_balance := env.ks_balance
    let pm_balance := env.pm_balance
    let ks_markets := (ks_games.lookup arb.game).getD []
    let pm_markets := (pm_games.lookup arb.game).getD []
    let max_liq_ks := if 0 < ks_balance then ks_balance * LIQUIDITY_PERCENT else 0
    let max_liq_pm := if 0 < pm_balance then pm_balance * LIQUIDITY_PERCENT else 0
    let ks_market := ks_markets.find? fun m => decide (m.id = arb.ks_id)
    let pm_market := pm_markets.find? (pmIdMatches arb.pm_id)
    let max_ks_liquidity_shares : Option ℚ :=
      match ks_market with
      | none => none
      | some m =>
        let metric := max m.open_interest m.volume_24h
        if 0 < metric then some (metric * (10 / 100)) else none
    let max_pm_liquidity_shares : Option ℚ :=
      match pm_market with
      | none => none
      | some m =>
        let pm_metric := if 0 < m.volume_24h then m.volume_24h else m.volume * (10 / 100)
        if 0 < pm_metric ∧ 0 < cost then some (pm_metric * (1 / 100) / cost) else none
    let base :=
      min (if 0 < cost then max_liq_ks / cost else 0)
        (min (if 0 < cost then max_liq_pm / cost else 0)
          (if 0 < cost then MAX_POSITION / cost else 0))
    let position_size := minQ (minQ base max_ks_liquidity_shares) max_pm_liquidity_shares
    let position_size := if TEST_TINY_ORDER then TEST_ORDER_SIZE else position_size
    if position_size < 1 then none
    else
      -- `int(position_size)`: truncation, which for the positive values
      -- reaching this point is the floor.
      let position_size : ℚ := ((⌊position_size⌋ : ℤ) : ℚ)
      let trade_cost := cost * position_size
      if ks_balance < trade_cost then none
      else if pm_balance < trade_cost then none
      else
        let position_size := if TEST_TINY_ORDER then TEST_ORDER_SIZE else position_size
        match ks_markets.find? fun m => decide (m.id = arb.ks_id) with
        | none => none
        | some _ks_fresh_market =>
          match pm_markets.find? (pmIdEq arb.pm_id) with
          | none => none
          | some _pm_market_data => some position_size

/-- Model of `execute_arb(arb, ks_games, pm_games)`: pre-flight, then
    leg 1 (Polymarket buy), then leg 2 (Kalshi), with the compensating
    close and `log_trade` calls exactly as in the source. -/
def execute_arb (arb : Arb) (ks_games : List (String × List KsMarket))
    (pm_games : List (String × List PmMarket)) (env : ExecEnv) : ExecResult :=
  match preflight arb ks_games pm_games env with
  | none => ⟨false, [], []⟩
  | some position_size =>
    if env.pmOrderOk = false then ⟨false, [.pmOrder], []⟩
    else if env.ksOrderOk = false then
      ⟨false, [.pmOrder, .ksOrder, .pmClose],
        [⟨false, env.pmCloseOk, position_size⟩]⟩
    else
      ⟨true, [.pmOrder, .ksOrder], [⟨true, true, position_size⟩]⟩

/-! ## Duplicate suppression (`get_arb_key` and the scan gating) -/

/-- Model of `get_arb_key(arb)`:
    `f"{game}:{market_type}:{ks_side}:{pm_side}"`. -/
def get_arb_key (arb : Arb) : String :=
  arb.game ++ ":" ++ mtStr arb.market_type ++ ":" ++ ksSideStr arb.ks_side ++ ":" ++
    pmSideStr arb.pm_side

/-- The process-wide mutable risk state: the `EXECUTED_ARBS` set (as a
    list of keys) and the `GAME_POSITION_COUNT` dict (as an association
    list, later bindings first). -/
structure RiskState where
  executed : List String
  gameCount : List (String × ℕ)
deriving DecidableEq

/-- One candidate's pass through the scan-loop gating (lines 1900-1923):
    ROI threshold, duplicate suppression, per-game exposure cap, then the
    execution attempt whose outcome is the oracle `execSuccess`.  Returns
    whether `execute_arb` was invoked, and the updated state (the key is
    recorded and the counter bumped only on success).  The function takes
    no clock: nothing in the program ever removes a key from
    `EXECUTED_ARBS`, so the decision is the same at any later time. -/
def scanStep (st : RiskState) (arb : Arb) (execSuccess : Bool) : Bool × RiskState :=
  if MIN_PROFIT ≤ arb.roi then
    if st.executed.contains (get_arb_key arb) then (false, st)
    else
      let cnt := (st.gameCount.lookup arb.game).getD 0
      if MAX_POSITIONS_PER_GAME ≤ cnt then (false, st)
      else if execSuccess then
        (true, ⟨get_arb_key arb :: st.executed, (arb.game, cnt + 1) :: st.gameCount⟩)
      else (true, st)
  else (false, st)

/-! ## The trade journal (`log_trade`, `check_loss_threshold`,
`check_naked_positions`)

The journal file is modelled by its observable states: absent, present
but unreadable/unparseable, or a well-formed list of records. -/

structure Trade where
  timestamp : ℚ
  type : String
  game : String
  cost : ℚ
  profit : ℚ
  roi : ℚ
  position_size : ℚ
  trade_cost : ℚ
  locked_profit : ℚ
  success : Bool
  both_legs_filled : Bool
deriving DecidableEq

inductive JFile
  | missing
  | corrupt
  | ok (trades : List Trade)
deriving DecidableEq

/-- What the read block of `log_trade` yields: `[]` when the file is
    absent (the `os.path.exists` guard) or unreadable (the `except`
    arm), the parsed list otherwise. -/
def readTrades : JFile → List Trade
  | .missing => []
  | .corrupt => []
  | .ok ts => ts

/-- The record dict `log_trade` builds. -/
def mkTrade (now : ℚ) (arb : Arb) (position_size : ℚ)
    (success both_legs_filled : Bool) : Trade :=
  { timestamp := now, type := arb.type, game := arb.game, cost := arb.cost,
    profit := arb.profit, roi := arb.roi, position_size := position_size,
    trade_cost := arb.cost * position_size,
    locked_profit := arb.profit * position_size,
    success := success, both_legs_filled := both_legs_filled }

/-- Model of `log_trade`: read (or recover to `[]`), append one record,
    rewrite the whole file. -/
def log_trade (now : ℚ) (arb : Arb) (position_size : ℚ)
    (success both_legs_filled : Bool) (f : JFile) : JFile :=
  .ok (readTrades f ++ [mkTrade now arb position_size success both_legs_filled])

/-- Model of `check_loss_threshold`: `True` means scanning may continue. -/
def check_loss_threshold (f : JFile) : Bool :=
  match f with
  | .missing => true
  | .corrupt => true
  | .ok trades =>
    if trades = [] then true
    else
      let total_cost := (trades.map fun t => t.trade_cost).sum
      let total_profit :=
        (trades.map fun t => if t.success then t.locked_profit else -t.trade_cost).sum
      if total_cost = 0 then true
      else decide (|min 0 total_profit| / total_cost < LOSS_KILL_THRESHOLD)

/-- Model of `check_naked_positions`: scans the last 10 records for one
    with `both_legs_filled` false. -/
def check_naked_positions (f : JFile) : Bool :=
  match f with
  | .missing => true
  | .corrupt => true
  | .ok trades =>
    if trades = [] then true
    else (trades.drop (trades.length - 10)).all fun t => t.both_legs_filled

/-- One `log_trade` invocation's arguments, for iterating the journal. -/
structure LogCall where
  now : ℚ
  arb : Arb
  position_size : ℚ
  success : Bool
  both_legs_filled : Bool
deriving DecidableEq

def mkTradeC (c : LogCall) : Trade :=
  mkTrade c.now c.arb c.position_size c.success c.both_legs_filled

/-- A sequence of `log_trade` calls applied in order. -/
def logMany (calls : List LogCall) (f : JFile) : JFile :=
  calls.foldl
    (fun g c => log_trade c.now c.arb c.position_size c.success c.both_legs_filled g) f

/-! # Claim theorems -/

/-- C9: For every call to `log_trade`, starting from any prior journal
    file state, the resulting journal contains every previously written
    trade record unchanged and in its original order, followed by exactly
    one new record; iterating writes keeps the whole history append-only,
    so records are never mutated or removed once written. -/
theorem c9_journal_append_only :
    (∀ (now : ℚ) (arb : Arb) (ps : ℚ) (s b : Bool) (f : JFile),
      log_trade now arb ps s b f = .ok (readTrades f ++ [mkTrade now arb ps s b])) ∧
    (∀ (calls : List LogCall) (ts : List Trade),
      logMany calls (.ok ts) = .ok (ts ++ calls.map mkTradeC)) := by
  refine ⟨fun now arb ps s b f => rfl, fun calls => ?_⟩
  induction calls with
  | nil => intro ts; simp [logMany]
  | cons c cs ih =>
    intro ts
    have step : logMany (c :: cs) (.ok ts) = logMany cs (.ok (ts ++ [mkTradeC c])) := rfl
    rw [step, ih]
    simp

/-- C10: When the trade journal file is missing, contains an empty list,
    or cannot be read or parsed, both `check_loss_threshold` and
    `check_naked_positions` return `True` (allow scanning to continue). -/
theorem c10_risk_checks_fail_open (f : JFile)
    (h : f = .missing ∨ f = .corrupt ∨ f = .ok []) :
    check_loss_threshold f = true ∧ check_naked_positions f = true := by
  rcases h with h | h | h <;> subst h <;> exact ⟨rfl, rfl⟩

/-- Witness for C10 at the concrete missing-file state. -/
theorem c10_witness :
    check_loss_threshold .missing = true ∧ check_naked_positions .missing = true :=
  c10_risk_checks_fail_open .missing (Or.inl rfl)

/-- Counterexample to C8 as stated: the title `"over 45.5 points"`
    contains `"over"` and none of the spread keywords, so by the claim it
    should classify as `total`; `extract_market_type` returns `none`
    because the code's first total rule requires `"o/u"`,
    `"over/under"`, or both `"over"` and `"under"` together. -/
theorem c8_counterexample :
    sub "over" (lower "over 45.5 points") = true ∧
    sub "spread" (lower "over 45.5 points") = false ∧
    sub "wins by" (lower "over 45.5 points") = false ∧
    sub "under" (lower "over 45.5 points") = false ∧
    extract_market_type "over 45.5 points" = none := by decide

/-- C8 (amended): `extract_market_type` classifies by fixed keyword
    rules in priority order — "spread"/"wins by" gives spread; `"o/u"`,
    `"over/under"`, both `"over"` and `"under"` together, or
    `"team total"` gives total (a title containing `"over"` alone is not
    classified total); "winner", a plain `" wins"` with no `"by"`
    anywhere, or a `" vs"` separator with no spread/total keywords gives
    winner; anything else is unclassifiable (`none`). -/
theorem c8_market_type_rules (title : String) :
    ((sub "spread" (lower title) || sub "wins by" (lower title)) = true →
      extract_market_type title = some .spread) ∧
    ((sub "spread" (lower title) || sub "wins by" (lower title)) = false →
      (sub "o/u" (lower title) || sub "over/under" (lower title) ||
        (sub "over" (lower title) && sub "under" (lower title)) ||
        sub "team total" (lower title)) = true →
      extract_market_type title = some .total) ∧
    ((sub "spread" (lower title) || sub "wins by" (lower title)) = false →
      (sub "o/u" (lower title) || sub "over/under" (lower title) ||
        (sub "over" (lower title) && sub "under" (lower title))) = false →
      sub "team total" (lower title) = false →
      (sub "winner" (lower title) ||
        (sub " wins" (lower title) && !sub "by" (lower title))) = true →
      extract_market_type title = some .winner) ∧
    ((sub "spread" (lower title) || sub "wins by" (lower title)) = false →
      (sub "o/u" (lower title) || sub "over/under" (lower title) ||
        (sub "over" (lower title) && sub "under" (lower title))) = false →
      sub "team total" (lower title) = false →
      (sub "winner" (lower title) ||
        (sub " wins" (lower title) && !sub "by" (lower title))) = false →
      (sub " vs" (lower title) && !sub "spread" (lower title) &&
        !sub "o/u" (lower title) && !sub "total" (lower title)) = true →
      extract_market_type title = some .winner) ∧
    ((sub "spread" (lower title) || sub "wins by" (lower title)) = false →
      (sub "o/u" (lower title) || sub "over/under" (lower title) ||
        (sub "over" (lower title) && sub "under" (lower title))) = false →
      sub "team total" (lower title) = false →
      (sub "winner" (lower title) ||
        (sub " wins" (lower title) && !sub "by" (lower title))) = false →
      (sub " vs" (lower title) && !sub "spread" (lower title) &&
        !sub "o/u" (lower title) && !sub "total" (lower title)) = false →
      extract_market_type title = none) := by
  unfold extract_market_type
  refine ⟨fun h1 => ?_, fun h1 h2 => ?_, fun h1 h2 h3 h4 => ?_,
    fun h1 h2 h3 h4 h5 => ?_, fun h1 h2 h3 h4 h5 => ?_⟩
  · simp [h1]
  · rcases Bool.or_eq_true_iff.mp h2 with h2a | h2b
    · simp [h1, h2a]
    · simp [h1, h2b]
  · simp [h1, h2, h3, h4]
  · simp [h1, h2, h3, h4, h5]
  · simp [h1, h2, h3, h4, h5]

/-- Witness for C8 (amended): the total rule applied to a concrete
    `"o/u"` title. -/
theorem c8_witness : extract_market_type "o/u 45.5" = some .total :=
  (c8_market_type_rules "o/u 45.5").2.1 (by decide) (by decide)

/-- C7 (amended): `calculate_position_size` returns the minimum of the
    liquidity ceilings, the capital ceilings and the global risk cap
    scaled by the 70% safety factor, **unless that unscaled minimum**
    falls below the profitability floor, in which case the floor is used,
    clamped to [0.01, 1.0].  (The code's branch condition compares the
    pre-scaling minimum against the floor, not the scaled value.) -/
theorem c7_sizer_formula (arb_cost arb_profit : ℚ)
    (ks_markets : List KsMarket) (pm_markets : List PmMarket)
    (ks_balance pm_balance : ℚ) :
    calculate_position_size arb_cost arb_profit ks_markets pm_markets
        ks_balance pm_balance =
      max (1 / 100)
        (min
          (if maxPositionOf arb_cost ks_markets pm_markets ks_balance pm_balance <
              profitFloor arb_profit then
            profitFloor arb_profit
          else
            maxPositionOf arb_cost ks_markets pm_markets ks_balance pm_balance *
              (70 / 100))
          1) := by
  unfold calculate_position_size
  rcases le_or_lt (profitFloor arb_profit)
      (maxPositionOf arb_cost ks_markets pm_markets ks_balance pm_balance) with h | h
  · simp only [if_pos h, if_neg (not_lt.mpr h)]
  · simp only [if_neg (not_le.mpr h), if_pos h]

section ConcreteEval

attribute [local semireducible] Rat.add Rat.mul Rat.sub Rat.inv Rat.ofScientific

/-- Concrete sizer input for the C7 counterexample. -/
def c7ks : List KsMarket := [⟨"t", 1 / 2, 1 / 2, "k", 0, 0⟩]

def c7pm : List PmMarket :=
  [⟨"t", 1 / 2, 1 / 2, 1 / 2, 1 / 2, ["T0", "T1"], ["Yes", "No"], 0, 0⟩]

/-- Counterexample to C7 as stated: with unit cost 9/10, unit profit
    23/1900 (so the profitability floor is 0.8), balances 81/50 and 100,
    the unscaled minimum of all ceilings is 0.9 ≥ 0.8, so the code
    returns 0.7 × 0.9 = 0.63 even though that scaled value is below the
    floor; the claim's rule ("the floor is used when the scaled value
    falls below it") would return 0.8. -/
theorem c7_counterexample :
    calculate_position_size (9 / 10) (23 / 1900) c7ks c7pm (81 / 50) 100 = 63 / 100 ∧
    sizePerClaim (9 / 10) (23 / 1900) c7ks c7pm (81 / 50) 100 = 4 / 5 ∧
    ((63 : ℚ) / 100 ≠ 4 / 5) := by decide

/-- A concrete executable candidate shared by several concrete
    evaluations: a total-type candidate over the sample game. -/
def a6 : Arb :=
  { game := "nfl:hou-pit", type := "Kalshi YES + Poly NO", market_type := .total,
    ks := "o/u 45.5 points", pm := "o/u 45.5", ks_id := "KX1",
    pm_id := .lst ["T0", "T1"], ks_side := .yes, pm_side := .n1,
    cost := 1 / 2, profit := 1 / 2, roi := 1, fee := 1 / 100,
    ks_ask := 1 / 2, pm_best_ask := 1 / 2 }

/-- Counterexample to C6 as stated: starting from the empty risk state,
    executing candidate `a6` succeeds once; a second pass of the very
    same scan gating over the same identity is skipped.  `scanStep` is
    the entire per-candidate gating logic of `scan` and takes no clock
    input — the only state it consults is the `EXECUTED_ARBS` set, from
    which no statement in the program ever removes a key (the constant
    `ARB_COOLDOWN_SECONDS` is defined but never read) — so the skip
    happens at every later time, including after the claimed 1-hour
    window, refuting the expiry clause of the claim. -/
theorem c6_counterexample :
    (scanStep ⟨[], []⟩ a6 true).1 = true ∧
    (scanStep (scanStep ⟨[], []⟩ a6 true).2 a6 true).1 = false ∧
    (scanStep ⟨[], []⟩ a6 true).2.executed = [get_arb_key a6] := by decide

end ConcreteEval

/-- An attempt on an identity already in the executed set is skipped. -/
theorem scanStep_skip {st : RiskState} {arb : Arb} {ok : Bool}
    (hd : st.executed.contains (get_arb_key arb) = true) :
    (scanStep st arb ok).1 = false := by
  unfold scanStep
  split_ifs <;> simp_all

/-- A successful executed pass records the identity key and bumps the
    per-game counter. -/
theorem scanStep_exec {st : RiskState} {arb : Arb}
    (h : (scanStep st arb true).1 = true) :
    (scanStep st arb true).2 =
      ⟨get_arb_key arb :: st.executed,
        (arb.game, (st.gameCount.lookup arb.game).getD 0 + 1) :: st.gameCount⟩ := by
  unfold scanStep at h ⊢
  by_cases h1 : MIN_PROFIT ≤ arb.roi
  · rw [if_pos h1] at h ⊢
    by_cases h2 : st.executed.contains (get_arb_key arb) = true
    · rw [if_pos h2] at h
      exact absurd h (by simp)
    · rw [if_neg h2] at h ⊢
      by_cases h3 : MAX_POSITIONS_PER_GAME ≤ (st.gameCount.lookup arb.game).getD 0
      · rw [if_pos h3] at h
        exact absurd h (by simp)
      · rw [if_neg h3] at h ⊢
        simp
  · rw [if_neg h1] at h
    exact absurd h (by simp)

/-- C6 (amended): once a candidate identity has been successfully
    executed its key is recorded, every later attempt on the same
    identity is skipped for the remainder of the process lifetime (so
    executing the same identity twice results in exactly one execution
    attempt), and the executed-key set never shrinks: deduplication
    entries do not expire. -/
theorem c6_dedup_permanent (st : RiskState) (arb : Arb) (ok2 : Bool)
    (h : (scanStep st arb true).1 = true) :
    (scanStep (scanStep st arb true).2 arb ok2).1 = false ∧
    ∀ k ∈ st.executed, k ∈ (scanStep st arb true).2.executed := by
  rw [scanStep_exec h]
  constructor
  · exact scanStep_skip (by simp)
  · intro k hk
    simp [hk]

/-- Exhaustive description of the outcomes of `execute_arb`: every
    pre-flight failure returns without events or logs; a leg-1 failure
    returns after the single Polymarket order; a leg-2 failure performs
    the compensating close and logs a failed trade whose
    `both_legs_filled` is the close's outcome; success logs a successful
    trade. -/
theorem execute_arb_cases (arb : Arb) (ksg : List (String × List KsMarket))
    (pmg : List (String × List PmMarket)) (env : ExecEnv) :
    execute_arb arb ksg pmg env = ⟨false, [], []⟩ ∨
    (env.pmOrderOk = false ∧
      execute_arb arb ksg pmg env = ⟨false, [.pmOrder], []⟩) ∨
    (env.pmOrderOk = true ∧ env.ksOrderOk = false ∧ ∃ ps,
      execute_arb arb ksg pmg env =
        ⟨false, [.pmOrder, .ksOrder, .pmClose], [⟨false, env.pmCloseOk, ps⟩]⟩) ∨
    (env.pmOrderOk = true ∧ env.ksOrderOk = true ∧ ∃ ps,
      execute_arb arb ksg pmg env =
        ⟨true, [.pmOrder, .ksOrder], [⟨true, true, ps⟩]⟩) := by
  unfold execute_arb
  cases hpf : preflight arb ksg pmg env with
  | none => exact Or.inl rfl
  | some ps =>
    dsimp only
    by_cases hp : env.pmOrderOk = false
    · rw [if_pos hp]
      exact Or.inr (Or.inl ⟨hp, rfl⟩)
    · rw [if_neg hp]
      rw [Bool.not_eq_false] at hp
      by_cases hk : env.ksOrderOk = false
      · rw [if_pos hk]
        exact Or.inr (Or.inr (Or.inl ⟨hp, hk, ps, rfl⟩))
      · rw [if_neg hk]
        rw [Bool.not_eq_false] at hk
        exact Or.inr (Or.inr (Or.inr ⟨hp, hk, ps, rfl⟩))

/-- C1: whenever execution reached the Kalshi leg (so the Polymarket leg
    had filled) and the Kalshi order failed, exactly one compensating
    Polymarket close is attempted, the trade is logged exactly once with
    `success = false`, and the logged `both_legs_filled` is `true` iff
    the compensating close succeeded (`false` iff it also failed). -/
theorem c1_compensation (arb : Arb) (ksg : List (String × List KsMarket))
    (pmg : List (String × List PmMarket)) (env : ExecEnv)
    (hks : Ev.ksOrder ∈ (execute_arb arb ksg pmg env).events)
    (hfail : env.ksOrderOk = false) :
    (execute_arb arb ksg pmg env).events.count Ev.pmClose = 1 ∧
    ((execute_arb arb ksg pmg env).logs.map fun l => (l.success, l.both_legs_filled)) =
      [(false, env.pmCloseOk)] ∧
    (execute_arb arb ksg pmg env).ret = false := by
  rcases execute_arb_cases arb ksg pmg env with h | ⟨hp, h⟩ | ⟨hp, hk, ps, h⟩ | ⟨hp, hk, ps, h⟩
  · rw [h] at hks
    simp at hks
  · rw [h] at hks
    simp at hks
  · rw [h]
    refine ⟨by simp, by simp, rfl⟩
  · rw [hk] at hfail
    simp at hfail

/-- C2: the Polymarket leg is always placed before the Kalshi leg (any
    trace containing the Kalshi order starts with the Polymarket order
    followed by the Kalshi order), and if the Polymarket order fails
    `execute_arb` returns failure with no Kalshi order ever placed and no
    trade record written. -/
theorem c2_poly_leg_first (arb : Arb) (ksg : List (String × List KsMarket))
    (pmg : List (String × List PmMarket)) (env : ExecEnv) :
    (env.pmOrderOk = false →
      (execute_arb arb ksg pmg env).ret = false ∧
      Ev.ksOrder ∉ (execute_arb arb ksg pmg env).events ∧
      (execute_arb arb ksg pmg env).logs = []) ∧
    (Ev.ksOrder ∈ (execute_arb arb ksg pmg env).events →
      (execute_arb arb ksg pmg env).events.take 2 = [Ev.pmOrder, Ev.ksOrder]) := by
  rcases execute_arb_cases arb ksg pmg env with h | ⟨hp, h⟩ | ⟨hp, hk, ps, h⟩ | ⟨hp, hk, ps, h⟩ <;>
    rw [h] <;> constructor
  · intro _
    refine ⟨rfl, by simp, rfl⟩
  · intro hm
    simp at hm
  · intro _
    refine ⟨rfl, by simp, rfl⟩
  · intro hm
    simp at hm
  · intro hpm
    rw [hpm] at hp
    simp at hp
  · intro _
    rfl
  · intro hpm
    rw [hpm] at hp
    simp at hp
  · intro _
    rfl

/-- Membership in an `emit` call forces the guard. -/
theorem mem_emit {a b : Arb} (h : a ∈ emit b) :
    a = b ∧ MIN_PROFIT * b.cost ≤ b.profit ∧ 0 < b.cost := by
  unfold emit at h
  split_ifs at h with hg
  · simp at h
    exact ⟨h, hg.1, hg.2⟩
  · simp at h

/-- The shape facts shared by every candidate a `(ksm, pmm)` pair can
    emit: the candidate's game key, type, leg identifiers and pricing
    identities. -/
def CandProps (k : String) (mt : MType) (ksm : KsMarket) (pmm : PmMarket)
    (a : Arb) : Prop :=
  a.game = k ∧ a.market_type = mt ∧ a.ks_id = ksm.id ∧
  (a.pm_id = .lst pmm.id ∨ a.pm_id = .tok (pmm.id.getD 0 "") ∨
    a.pm_id = .tok (pmm.id.getD 1 "")) ∧
  a.cost = a.ks_ask * (1 + KALSHI_TAKER_FEE) + a.pm_best_ask ∧
  a.profit = 1 - a.cost ∧ MIN_PROFIT * a.cost ≤ a.profit ∧ 0 < a.cost

theorem candProps_of_mem_emit {k : String} {mt : MType} {ksm : KsMarket}
    {pmm : PmMarket} {ty : String} {pid : PmId} {ks : KSide} {ps : PmSide}
    {ka pc : ℚ} {a : Arb}
    (hpid : pid = PmId.lst pmm.id ∨ pid = .tok (pmm.id.getD 0 "") ∨
      pid = .tok (pmm.id.getD 1 ""))
    (h : a ∈ emit (mkArb k ty mt ksm.title pmm.title ksm.id pid ks ps ka pc)) :
    CandProps k mt ksm pmm a := by
  obtain ⟨rfl, hg1, hg2⟩ := mem_emit h
  refine ⟨rfl, rfl, rfl, hpid, ?_, rfl, hg1, hg2⟩
  show ka + ka * KALSHI_TAKER_FEE + pc = ka * (1 + KALSHI_TAKER_FEE) + pc
  ring

/-- The winner-branch token reference is one of the market's two
    `clobTokenIds`. -/
theorem pmTokPick_pid (pmm : PmMarket) (i : ℕ) :
    (PmId.tok (pmm.id.getD (pmTokPick pmm i).2 "") = PmId.lst pmm.id ∨
      PmId.tok (pmm.id.getD (pmTokPick pmm i).2 "") = .tok (pmm.id.getD 0 "") ∨
      PmId.tok (pmm.id.getD (pmTokPick pmm i).2 "") = .tok (pmm.id.getD 1 "")) := by
  unfold pmTokPick
  split_ifs <;> simp

/-- Everything `candPair` emits satisfies `CandProps`, and spread
    candidates additionally force the two titles to resolve to the same
    (team, line). -/
theorem mem_candPair {k : String} {mt : MType} {ksm : KsMarket} {pmm : PmMarket}
    {a : Arb} (h : a ∈ candPair k mt ksm pmm) :
    CandProps k mt ksm pmm a ∧
    (mt = MType.spread →
      extract_spread_info ksm.title k = extract_spread_info pmm.title k ∧
      (extract_spread_info ksm.title k).isSome = true) := by
  cases mt with
  | spread =>
    unfold candPair at h
    cases hks : extract_spread_info ksm.title k with
    | none =>
      rw [hks] at h
      simp at h
    | some ks_sp =>
      cases hpm : extract_spread_info pmm.title k with
      | none =>
        rw [hks, hpm] at h
        simp at h
      | some pm_sp =>
        rw [hks, hpm] at h
        dsimp only at h
        by_cases heq : ks_sp = pm_sp
        · rw [if_pos heq] at h
          refine ⟨?_, fun _ => ⟨by rw [heq], rfl⟩⟩
          rcases List.mem_append.mp h with h | h
          · exact candProps_of_mem_emit (Or.inl rfl) h
          · exact candProps_of_mem_emit (Or.inl rfl) h
        · rw [if_neg heq] at h
          simp at h
  | winner =>
    unfold candPair at h
    dsimp only at h
    by_cases hline : extract_line_number ksm.title = extract_line_number pmm.title
    · rw [if_pos hline] at h
      by_cases hlen : (pySplit '-' ((pySplit ':' k.data).getD 1 "").data).length = 2
      · rw [if_pos hlen] at h
        cases hft : (pySplit '-' ((pySplit ':' k.data).getD 1 "").data).find? (fun ab =>
            (get_team_search_terms ab).any fun term =>
              isSubList (lower term) (lower ksm.title)) with
        | none =>
          rw [hft] at h
          simp at h
        | some ks_team =>
          rw [hft] at h
          dsimp only at h
          by_cases hout : pmm.outcomes.length < 2
          · rw [if_pos hout] at h
            simp at h
          · rw [if_neg hout] at h
            refine ⟨?_, fun hsp => by cases hsp⟩
            cases hki : lastMatchIdx (get_team_search_terms ks_team) pmm.outcomes with
            | none =>
              rw [hki] at h
              simp at h
            | some ki =>
              rw [hki] at h
              cases hoi : lastMatchIdx
                  (get_team_search_terms
                    (if (pySplit '-' ((pySplit ':' k.data).getD 1 "").data).getD 0 "" =
                        ks_team then
                      (pySplit '-' ((pySplit ':' k.data).getD 1 "").data).getD 1 ""
                    else (pySplit '-' ((pySplit ':' k.data).getD 1 "").data).getD 0 ""))
                  pmm.outcomes with
              | none =>
                rw [hoi] at h
                simp at h
              | some oi =>
                rw [hoi] at h
                dsimp only at h
                rcases List.mem_append.mp h with h | h
                · exact candProps_of_mem_emit (pmTokPick_pid pmm oi) h
                · exact candProps_of_mem_emit (pmTokPick_pid pmm ki) h
      · rw [if_neg hlen] at h
        simp at h
    · rw [if_neg hline] at h
      simp at h
  | total =>
    unfold candPair at h
    dsimp only at h
    by_cases hline : extract_line_number ksm.title = extract_line_number pmm.title
    · rw [if_pos hline] at h
      refine ⟨?_, fun hsp => by cases hsp⟩
      rcases List.mem_append.mp h with h | h
      · exact candProps_of_mem_emit (Or.inl rfl) h
      · exact candProps_of_mem_emit (Or.inl rfl) h
    · rw [if_neg hline] at h
      simp at h

/-- Every emitted candidate traces back to one Kalshi market and one
    Polymarket market stored under the candidate's own game key. -/
theorem mem_find_arbs {ksg : List (String × List KsMarket)}
    {pmg : List (String × List PmMarket)} {a : Arb}
    (h : a ∈ find_arbs ksg pmg) :
    ∃ ksms pmms ksm pmm mt,
      (a.game, ksms) ∈ ksg ∧ pmg.lookup a.game = some pmms ∧
      ksm ∈ ksms ∧ pmm ∈ pmms ∧ a ∈ candPair a.game mt ksm pmm := by
  unfold find_arbs at h
  rw [List.mem_flatMap] at h
  obtain ⟨e, he, ha⟩ := h
  cases hl : pmg.lookup e.1 with
  | none =>
    rw [hl] at ha
    simp at ha
  | some pmms =>
    rw [hl] at ha
    dsimp only at ha
    unfold arbsForGame at ha
    rw [List.mem_flatMap] at ha
    obtain ⟨mt, _, ha⟩ := ha
    rw [List.mem_flatMap] at ha
    obtain ⟨ksm, hksm, ha⟩ := ha
    rw [List.mem_flatMap] at ha
    obtain ⟨pmm, hpmm, ha⟩ := ha
    have hgame : a.game = e.1 := ((mem_candPair ha).1).1
    refine ⟨e.2, pmms, ksm, pmm, mt, ?_, ?_, ?_, ?_, ?_⟩
    · rw [hgame]
      simpa using he
    · rw [hgame]
      exact hl
    · exact (List.mem_filter.mp hksm).1
    · exact (List.mem_filter.mp hpmm).1
    · rw [hgame]
      exact ha

/-- C3: every candidate `find_arbs` emits prices the Kalshi leg with the
    2% taker fee (`cost = ks_leg_cost × 1.02 + pm_leg_cost`), satisfies
    `cost + profit = 1`, clears the profit threshold
    `profit ≥ MIN_PROFIT × cost`, and has `profit > 0` and
    `0 < cost ≤ 1`. -/
theorem c3_candidate_pricing (ksg : List (String × List KsMarket))
    (pmg : List (String × List PmMarket)) (a : Arb)
    (h : a ∈ find_arbs ksg pmg) :
    a.cost = a.ks_ask * (1 + KALSHI_TAKER_FEE) + a.pm_best_ask ∧
    a.cost + a.profit = 1 ∧
    MIN_PROFIT * a.cost ≤ a.profit ∧
    0 < a.profit ∧ 0 < a.cost ∧ a.cost ≤ 1 := by
  obtain ⟨_, _, ksm, pmm, mt, _, _, _, _, hc⟩ := mem_find_arbs h
  obtain ⟨⟨_, _, _, _, hcost, hprofit, hguard, hpos⟩, _⟩ := mem_candPair hc
  have hMP : MIN_PROFIT = 1 / 200 := by norm_num [MIN_PROFIT]
  rw [hMP] at hguard
  have hpp : 0 < a.profit := by nlinarith
  refine ⟨hcost, by linarith, by rw [hMP]; exact hguard, hpp, hpos, by linarith⟩

/-- C5: `find_arbs` never pairs markets filed under different game keys:
    every emitted candidate references one Kalshi market and one
    Polymarket market both stored under the candidate's own sport-tagged
    game key (its `ks_id` is that Kalshi market's ticker, its `pm_id` is
    that Polymarket market's token pair or one of its two tokens). -/
theorem c5_same_game_pairing (ksg : List (String × List KsMarket))
    (pmg : List (String × List PmMarket)) (a : Arb)
    (h : a ∈ find_arbs ksg pmg) :
    ∃ ksms pmms, (a.game, ksms) ∈ ksg ∧ pmg.lookup a.game = some pmms ∧
      ∃ ksm ∈ ksms, ∃ pmm ∈ pmms, a.ks_id = ksm.id ∧
        (a.pm_id = .lst pmm.id ∨ a.pm_id = .tok (pmm.id.getD 0 "") ∨
          a.pm_id = .tok (pmm.id.getD 1 "")) := by
  obtain ⟨ksms, pmms, ksm, pmm, mt, h1, h2, h3, h4, hc⟩ := mem_find_arbs h
  obtain ⟨⟨_, _, hks, hpid, _⟩, _⟩ := mem_candPair hc
  exact ⟨ksms, pmms, h1, h2, ksm, h3, pmm, h4, hks, hpid⟩

section ConcreteSamples

attribute [local semireducible] Rat.add Rat.mul Rat.sub Rat.inv Rat.ofScientific

/-- Sample Kalshi total market. -/
def wKsM : KsMarket := ⟨"o/u 45.5 points", 1 / 2, 1 / 2, "KX1", 0, 0⟩

/-- Sample Polymarket total market. -/
def wPmM : PmMarket :=
  ⟨"o/u 45.5", 1 / 5, 2 / 5, 3 / 5, 1 / 5, ["T0", "T1"], ["Yes", "No"], 0, 0⟩

def wKs : List (String × List KsMarket) := [("nfl:hou-pit", [wKsM])]

def wPm : List (String × List PmMarket) := [("nfl:hou-pit", [wPmM])]

/-- Leg 1 fills, leg 2 fails, the compensating close also fails. -/
def wEnvComp : ExecEnv := ⟨100, 100, true, false, false⟩

/-- Both legs fill. -/
def wEnvOk : ExecEnv := ⟨100, 100, true, true, true⟩

/-- Leg 1 (Polymarket) is rejected. -/
def wEnvPmFail : ExecEnv := ⟨100, 100, false, true, true⟩

/-- Witness for C1 at a concrete execution reaching the Kalshi leg. -/
theorem c1_witness :
    (execute_arb a6 wKs wPm wEnvComp).events.count Ev.pmClose = 1 ∧
    ((execute_arb a6 wKs wPm wEnvComp).logs.map fun l => (l.success, l.both_legs_filled)) =
      [(false, wEnvComp.pmCloseOk)] ∧
    (execute_arb a6 wKs wPm wEnvComp).ret = false :=
  c1_compensation a6 wKs wPm wEnvComp (by decide) rfl

/-- Witness for C2 at concrete executions: a rejected Polymarket leg
    aborts with no Kalshi order and no record, and a successful run
    places the Polymarket order first. -/
theorem c2_witness :
    ((execute_arb a6 wKs wPm wEnvPmFail).ret = false ∧
      Ev.ksOrder ∉ (execute_arb a6 wKs wPm wEnvPmFail).events ∧
      (execute_arb a6 wKs wPm wEnvPmFail).logs = []) ∧
    (execute_arb a6 wKs wPm wEnvOk).events.take 2 = [Ev.pmOrder, Ev.ksOrder] :=
  ⟨(c2_poly_leg_first a6 wKs wPm wEnvPmFail).1 rfl,
    (c2_poly_leg_first a6 wKs wPm wEnvOk).2 (by decide)⟩

/-- Witness for C6 (amended) at a concrete executed identity. -/
theorem c6_witness :
    (scanStep (scanStep ⟨[], []⟩ a6 true).2 a6 true).1 = false ∧
    ∀ k ∈ (⟨[], []⟩ : RiskState).executed,
      k ∈ (scanStep ⟨[], []⟩ a6 true).2.executed :=
  c6_dedup_permanent ⟨[], []⟩ a6 true (by decide)

/-- Kalshi spread market resolving to (pit, 6.5). -/
def cKsM : KsMarket := ⟨"pittsburgh wins by over 6.5?", 3 / 10, 7 / 10, "KX2", 0, 0⟩

/-- Polymarket spread market resolving to (hou, 6.5): same absolute line
    as `cKsM` but the other team. -/
def cPmM : PmMarket :=
  ⟨"houston -6.5 spread", 2 / 5, 3 / 5, 2 / 5, 2 / 5, ["T0", "T1"],
    ["Houston Texans", "Pittsburgh Steelers"], 0, 0⟩

/-- Polymarket spread market whose title resolves to no team. -/
def nPmM : PmMarket :=
  ⟨"spread -6.5 market", 2 / 5, 1 / 2, 1 / 2, 2 / 5, ["T0", "T1"], ["A", "B"], 0, 0⟩

/-- Polymarket spread market resolving to (pit, 6.5), matching `cKsM`. -/
def sPmM : PmMarket :=
  ⟨"pittsburgh -6.5 spread", 1 / 5, 1 / 2, 1 / 2, 1 / 5, ["T0", "T1"],
    ["Pittsburgh Steelers", "Houston Texans"], 0, 0⟩

def cKs : List (String × List KsMarket) := [("nfl:hou-pit", [cKsM])]

def cPm : List (String × List PmMarket) := [("nfl:hou-pit", [cPmM])]

def nPm : List (String × List PmMarket) := [("nfl:hou-pit", [nPmM])]

def sPm : List (String × List PmMarket) := [("nfl:hou-pit", [sPmM])]

/-- C4: every spread candidate pairs two markets whose titles resolve via
    `extract_spread_info` to the same (team, absolute line) under the
    candidate's game key; two spread markets for the same game with the
    same numeric line but resolving to different teams yield zero
    candidates; and a spread market whose title resolves to no team
    yields zero candidates. -/
theorem c4_spread_identity :
    (∀ (ksg : List (String × List KsMarket)) (pmg : List (String × List PmMarket))
        (a : Arb), a ∈ find_arbs ksg pmg → a.market_type = .spread →
      ∃ ksms pmms, (a.game, ksms) ∈ ksg ∧ pmg.lookup a.game = some pmms ∧
        ∃ ksm ∈ ksms, ∃ pmm ∈ pmms,
          extract_spread_info ksm.title a.game = extract_spread_info pmm.title a.game ∧
          (extract_spread_info ksm.title a.game).isSome = true) ∧
    find_arbs cKs cPm = [] ∧
    find_arbs cKs nPm = [] := by
  refine ⟨?_, by decide, by decide⟩
  intro ksg pmg a h hs
  obtain ⟨ksms, pmms, ksm, pmm, mt, h1, h2, h3, h4, hc⟩ := mem_find_arbs h
  obtain ⟨⟨_, hmt, _⟩, hsp⟩ := mem_candPair hc
  rw [hmt] at hs
  obtain ⟨he, hsome⟩ := hsp hs
  exact ⟨ksms, pmms, h1, h2, ksm, h3, pmm, h4, he, hsome⟩

/-- The first candidate the sample total pairing emits. -/
def wArb1 : Arb :=
  mkArb "nfl:hou-pit" "Kalshi YES + Poly NO" .total "o/u 45.5 points" "o/u 45.5"
    "KX1" (.lst ["T0", "T1"]) .yes .n1 (1 / 2) (2 / 5)

/-- The first candidate the matching spread pairing emits
    (both titles resolve to (pit, 6.5); same-team market, so the
    Polymarket NO side is bought). -/
def sArb1 : Arb :=
  mkArb "nfl:hou-pit" "Kalshi PIT YES + Poly HOU YES" .spread
    "pittsburgh wins by over 6.5?" "pittsburgh -6.5 spread" "KX2"
    (.lst ["T0", "T1"]) .yes .no (3 / 10) (1 / 2)

/-- Witness for C3 at a concrete emitted candidate. -/
theorem c3_witness :
    wArb1.cost = wArb1.ks_ask * (1 + KALSHI_TAKER_FEE) + wArb1.pm_best_ask ∧
    wArb1.cost + wArb1.profit = 1 ∧
    MIN_PROFIT * wArb1.cost ≤ wArb1.profit ∧
    0 < wArb1.profit ∧ 0 < wArb1.cost ∧ wArb1.cost ≤ 1 :=
  c3_candidate_pricing wKs wPm wArb1 (by decide)

/-- Witness for C4 at a concrete emitted spread candidate. -/
theorem c4_witness :
    ∃ ksms pmms, (sArb1.game, ksms) ∈ cKs ∧ sPm.lookup sArb1.game = some pmms ∧
      ∃ ksm ∈ ksms, ∃ pmm ∈ pmms,
        extract_spread_info ksm.title sArb1.game =
          extract_spread_info pmm.title sArb1.game ∧
        (extract_spread_info ksm.title sArb1.game).isSome = true :=
  c4_spread_identity.1 cKs sPm sArb1 (by decide) (by decide)

/-- Witness for C5 at a concrete emitted candidate. -/
theorem c5_witness :
    ∃ ksms pmms, (wArb1.game, ksms) ∈ wKs ∧ wPm.lookup wArb1.game = some pmms ∧
      ∃ ksm ∈ ksms, ∃ pmm ∈ pmms, wArb1.ks_id = ksm.id ∧
        (wArb1.pm_id = .lst pmm.id ∨ wArb1.pm_id = .tok (pmm.id.getD 0 "") ∨
          wArb1.pm_id = .tok (pmm.id.getD 1 "")) :=
  c5_same_game_pairing wKs wPm wArb1 (by decide)

end ConcreteSamples

end PolyBotArb
